import Mathlib

/-!
# Verification of the pennylane classical-Jacobian / transform-composition core

Shallow embedding of `src/pennylane/transforms/decorators.py` and
`src/pennylane/transforms/classical_jacobian.py`.

The queuing context, tape protocol, device execution and backend Jacobian
primitives are external collaborators of this core (spec section 6); they are
modelled here from the spec's interface descriptions, while every function of
the two source files is translated directly from its Python definition.

Conventions:
* Python numeric values are rationals (`Rat`); machine floats do not occur in
  the claims under verification.
* Python exceptions are values of `PyErr`; a fallible computation returns
  `Except PyErr _`.
* Python `None` / absent values are `Option.none`.
* The process-wide queuing-context stack is threaded explicitly as a `QState`.
-/

/-- Python exceptions that the modelled code can raise.  `nameError s` models a
`NameError` for the undefined name `s`; `userError n` stands for an arbitrary
exception raised by user-supplied transform bodies or quantum functions. -/
inductive PyErr where
  | valueError
  | typeError
  | nameError (s : String)
  | userError (n : Nat)
  deriving DecidableEq, Repr

/-- An object registered with a queuing context: either a gate / measurement
(`item name params isMeas`) or a nested tape that queued itself on `__enter__`
(`nested id`), identified by a unique tape id. -/
inductive QItem where
  | item (name : String) (params : List Rat) (isMeas : Bool)
  | nested (id : Nat)
  deriving DecidableEq, Repr

/-- Flat-map over a list, written out so that later inductions are direct. -/
def listFlatMap (f : α → List β) : List α → List β
  | [] => []
  | a :: rest => f a ++ listFlatMap f rest

/-- A quantum tape: the concrete tape class name (`kind`), the ordered queue of
recorded objects, and the declared numeric backend identifier of the tape
(`itf`, the source's `tape.interface`).  Models the external Tape protocol of
spec section 6 plus the data model of spec section 3. -/
structure Tape where
  kind : String
  queue : List QItem
  itf : String := "autograd"
  deriving DecidableEq, Repr

/-- The parameters carried by one queued object. -/
def QItem.params' : QItem → List Rat
  | .item _ ps _ => ps
  | .nested _ => []

/-- `tape.get_parameters()`: the flat ordered collection of parameters, in
deterministic traversal order over the queue. -/
def Tape.get_parameters (t : Tape) : List Rat :=
  listFlatMap QItem.params' t.queue

/-- Distribute a flat parameter list back over a queue, each gate taking as
many values as its arity, in traversal order (helper for `set_parameters`). -/
def distributeParams : List QItem → List Rat → List QItem
  | [], _ => []
  | .item n ps m :: rest, vals =>
      .item n (vals.take ps.length) m :: distributeParams rest (vals.drop ps.length)
  | .nested i :: rest, vals => .nested i :: distributeParams rest vals

/-- `tape.set_parameters(values)`: writes a flat value collection back into the
tape's operations. -/
def Tape.set_parameters (t : Tape) (vals : List Rat) : Tape :=
  { t with queue := distributeParams t.queue vals }

/-- Number of parameters of a tape. -/
def Tape.arity (t : Tape) : Nat := t.get_parameters.length

/-- `tape.measurements`: the recorded measurement objects, in order. -/
def Tape.measurements (t : Tape) : List QItem :=
  t.queue.filter (fun it => match it with
    | .item _ _ m => m
    | .nested _ => false)

/-- One active recording scope on the queuing-context stack.  `recording` is
the scoped stop-recording toggle; `nonQ` marks the non-queuing tape variant
(`NonQueuingTape`) whose processing forwards its queue outward. -/
structure Scope where
  tid : Nat
  kind : String
  recording : Bool
  nonQ : Bool
  queue : List QItem
  deriving DecidableEq, Repr

/-- The process-wide queuing context: a stack of recording scopes (head =
active scope) plus a supply of fresh tape ids.  Models the external Queuing
Context protocol of spec sections 3 and 6. -/
structure QState where
  stack : List Scope
  fresh : Nat
  deriving DecidableEq, Repr

/-- `QueuingContext.append(obj)`: registers `obj` with the active scope, unless
there is none or it has been told to stop recording (spec section 3). -/
def qappend (st : QState) (x : QItem) : QState :=
  match st.stack with
  | [] => st
  | s :: rest =>
      if s.recording then { st with stack := { s with queue := s.queue ++ [x] } :: rest }
      else st

/-- `QueuingContext.remove(obj)`: removes `obj` from the active scope's queue
when present (same gating as `append`). -/
def qremove (st : QState) (x : QItem) : QState :=
  match st.stack with
  | [] => st
  | s :: rest =>
      if s.recording then { st with stack := { s with queue := s.queue.erase x } :: rest }
      else st

/-- Set the stop-recording toggle of the active scope. -/
def setTopRecording (b : Bool) (st : QState) : QState :=
  match st.stack with
  | [] => st
  | s :: rest => { st with stack := { s with recording := b } :: rest }

/-- Tape `__enter__`: the new tape first queues itself with the active context
(`QueuingContext.append(self)`), then pushes itself as the new active scope.
Returns the fresh tape id. -/
def enterTape (kind : String) (nonQ : Bool) (st : QState) : Nat × QState :=
  let tid := st.fresh
  let st1 := qappend st (QItem.nested tid)
  (tid, { stack := { tid := tid, kind := kind, recording := true, nonQ := nonQ,
                     queue := [] } :: st1.stack,
          fresh := tid + 1 })

/-- Tape `__exit__`: pops the scope and runs `_process_queue`.  A plain tape
just materialises its queue.  A `NonQueuingTape` additionally forwards every
recorded object to the now-active outer scope (`QueuingContext.append(obj)`)
and removes itself from it (`QueuingContext.remove(self)`), translated from
`NonQueuingTape._process_queue`. -/
def exitTape (st : QState) : Tape × QState :=
  match st.stack with
  | [] => (⟨"QuantumTape", [], "autograd"⟩, st)
  | s :: rest =>
      let st1 : QState := { st with stack := rest }
      let tape : Tape := ⟨s.kind, s.queue, "autograd"⟩
      if s.nonQ then
        let st2 := s.queue.foldl qappend st1
        (tape, qremove st2 (QItem.nested s.tid))
      else (tape, st1)

/-- A quantum function: given its call arguments it instantiates a sequence of
operations (which auto-register with the active scope) and possibly raises.
The queued prefix before a raise is the first component. -/
def QFunc : Type := List Rat → List QItem × Option PyErr

/-- `make_tape(fn)` applied to arguments, translated from
`decorators.make_tape.wrapper`: if a tape is actively recording it is told to
stop recording and a brand-new tape of the same class is entered; otherwise a
fresh `QuantumTape` is entered.  `fn` runs inside the new scope; the scope is
exited and the outer recording state restored on every path, and the new tape
is returned (or the error re-raised). -/
def makeTapeRun (fn : QFunc) (args : List Rat) (st : QState) :
    Except PyErr Tape × QState :=
  match st.stack with
  | s :: _ =>
      let saved := s.recording
      let st1 := setTopRecording false st
      let st2 := (enterTape s.kind false st1).2
      let r := fn args
      let st3 := r.1.foldl qappend st2
      let (tape, st4) := exitTape st3
      let st5 := setTopRecording saved st4
      (match r.2 with
       | none => .ok tape
       | some e => .error e, st5)
  | [] =>
      let st2 := (enterTape "QuantumTape" false st).2
      let r := fn args
      let st3 := r.1.foldl qappend st2
      let (tape, st4) := exitTape st3
      (match r.2 with
       | none => .ok tape
       | some e => .error e, st4)

/-- The body of a registered single-tape transform: reads the input tape and
the extra transform arguments, instantiates a sequence of operations (queued to
the active scope) and possibly raises; it returns no value. -/
def STTBody : Type := Tape → List Rat → List QItem × Option PyErr

/-- `single_tape_transform.__call__`, translated from the source: a new tape
whose runtime class fuses `NonQueuingTape` with the input tape's own class (and
therefore carries its class name) is entered, the transform body runs with the
input tape and extra arguments, the scope is exited (forwarding its queue
outward and removing itself, per `NonQueuingTape._process_queue`), and the
result is reclassified to the input tape's plain class. -/
def stt_call (body : STTBody) (tape : Tape) (targs : List Rat) (st : QState) :
    Except PyErr Tape × QState :=
  let st1 := (enterTape tape.kind true st).2
  let r := body tape targs
  let st2 := r.1.foldl qappend st1
  let (newTape, st3) := exitTape st2
  (match r.2 with
   | none => .ok { newTape with kind := tape.kind }
   | some e => .error e, st3)

/-- `single_tape_transform.__init__`: registering `none` (a non-callable
object) raises a `ValueError` immediately; otherwise the body is stored. -/
def single_tape_transform_init (f : Option STTBody) : Except PyErr STTBody :=
  match f with
  | none => .error .valueError
  | some body => .ok body

/-- One step of tape expansion on a single queued object: a measurement or a
stopped object is kept; otherwise the decomposition rule (external Tape
protocol, spec section 6) replaces the object by its sub-operations, which are
expanded further up to the remaining depth.  `decomp` is the environment's
decomposition table; `stopAt` is the optional per-operation stop predicate. -/
def expandItem (decomp : String → List Rat → Option (List QItem))
    (stopAt : Option (QItem → Bool)) : Nat → QItem → List QItem
  | 0, it => [it]
  | d + 1, it =>
      if (stopAt.getD (fun _ => false)) it then [it]
      else
        match it with
        | .nested i => [.nested i]
        | .item n ps m =>
            if m then [.item n ps m]
            else
              match decomp n ps with
              | none => [.item n ps m]
              | some subs => listFlatMap (expandItem decomp stopAt d) subs

/-- `tape.expand(depth, stop_at)`: expands every queued operation to the given
depth, honouring the stop predicate.  The expanded tape keeps the original
tape's class and backend identifier. -/
def Tape.expand (decomp : String → List Rat → Option (List QItem))
    (stopAt : Option (QItem → Bool)) (depth : Nat) (t : Tape) : Tape :=
  { t with queue := listFlatMap (expandItem decomp stopAt depth) t.queue }

/-- The mutable state of a `classical_jacobian.expansion_jacobian` instance:
the wrapped tape, the configured expansion depth and stop predicate, and the
cached expanded tape (`_expanded_tape`, exposed as the `expanded_tape`
property; `none` right after `__init__`). -/
structure ExpansionJacobian where
  tape : Tape
  depth : Nat
  stopAt : Option (QItem → Bool)
  expanded_tape : Option Tape

/-- `expansion_jacobian.__init__(tape, depth=1, stop_at=None)`. -/
def mkExpansionJacobian (tape : Tape) (depth : Nat := 1)
    (stopAt : Option (QItem → Bool) := none) : ExpansionJacobian :=
  { tape := tape, depth := depth, stopAt := stopAt, expanded_tape := none }

/-- The `classical_preprocessing` closure of `expansion_jacobian.__init__`,
translated from the source: it (i) writes the candidate parameter values back
into `self.tape` via `set_parameters`, (ii) expands that tape to the configured
depth with the configured stop predicate and caches the result in
`self._expanded_tape`, and (iii) returns the flat (stacked) parameter
collection of the expanded tape.  Returns the updated instance state together
with the returned value. -/
def ExpansionJacobian.classical_preprocessing
    (decomp : String → List Rat → Option (List QItem))
    (e : ExpansionJacobian) (params : List Rat) :
    ExpansionJacobian × List Rat :=
  let t1 := e.tape.set_parameters params
  let ex := t1.expand decomp e.stopAt e.depth
  ({ e with tape := t1, expanded_tape := some ex }, ex.get_parameters)

/-- A symbolic classical-preprocessing expression over the external scalar
arguments of a circuit: the gate parameters of a circuit are (rational)
polynomial expressions in the circuit's arguments. -/
inductive Expr where
  | const (q : Rat)
  | var (j : Nat)
  | add (a b : Expr)
  | mul (a b : Expr)
  deriving DecidableEq, Repr

/-- Evaluate an expression at an argument vector (absent positions read 0). -/
def Expr.eval (args : List Rat) : Expr → Rat
  | .const q => q
  | .var j => args.getD j 0
  | .add a b => a.eval args + b.eval args
  | .mul a b => a.eval args * b.eval args

/-- Symbolic partial derivative with respect to argument `j`. -/
def pderiv (j : Nat) : Expr → Expr
  | .const _ => .const 0
  | .var i => .const (if i = j then 1 else 0)
  | .add a b => .add (pderiv j a) (pderiv j b)
  | .mul a b => .add (.mul (pderiv j a) b) (.mul a (pderiv j b))

/-- Whether argument `j` occurs in an expression. -/
def occursVar (j : Nat) : Expr → Bool
  | .const _ => false
  | .var i => i = j
  | .add a b => occursVar j a || occursVar j b
  | .mul a b => occursVar j a || occursVar j b

/-- The backend Jacobian adapters produced by `_make_jacobian_fn`, one
constructor per supported backend identifier, each wrapping the function to be
differentiated exactly as the corresponding source branch does: `autograd`
delegates to the native reverse-mode primitive, `torch` wraps the function so
its positional arguments become the functional-Jacobian input tuple, `jax`
delegates to the Jacobian transform, and `tf` evaluates under a watched
gradient-tape scope. -/
inductive JacobianFn (F : Type) where
  | autogradJac (fn : F)
  | torchJac (fn : F)
  | jaxJac (fn : F)
  | tfJac (fn : F)
  deriving DecidableEq, Repr

/-- `classical_jacobian._make_jacobian_fn(fn, interface)`, translated from the
source: one branch per supported backend identifier; any other identifier
falls through and returns `None`. -/
def _make_jacobian_fn (fn : F) (itf : String) : Option (JacobianFn F) :=
  if itf = "autograd" then some (.autogradJac fn)
  else if itf = "torch" then some (.torchJac fn)
  else if itf = "jax" then some (.jaxJac fn)
  else if itf = "tf" then some (.tfJac fn)
  else none

/-- The Jacobian matrix of a symbolic output list with respect to the argument
vector: rows = output index, columns = argument index. -/
def jacMatrix (es : List Expr) (args : List Rat) : List (List Rat) :=
  es.map (fun e => (List.range args.length).map (fun j => (pderiv j e).eval args))

/-- Modelled from the spec: each backend's "compute Jacobian of a function"
primitive (spec sections 4.1 and 6) returns, at the call-site arguments, the
matrix of partial derivatives of the function's flat outputs with respect to
its flat inputs.  The four adapters differ in how they wrap the function (see
`JacobianFn`), not in the mathematical value they compute. -/
def JacobianFn.call : JacobianFn (List Expr) → List Rat → List (List Rat)
  | .autogradJac es, args => jacMatrix es args
  | .torchJac es, args => jacMatrix es args
  | .jaxJac es, args => jacMatrix es args
  | .tfJac es, args => jacMatrix es args

/-- One operation of a symbolically-parameterised quantum function: its gate
parameters are expressions in the circuit's external arguments. -/
structure SymItem where
  name : String
  exprs : List Expr
  isMeas : Bool

/-- A differentiable circuit entity (QNode) whose quantum function is given
symbolically: binds the quantum function, the declared backend identifier
(`interface`) and the execution target (`device`); spec section 3. -/
structure SymQNode where
  ops : List SymItem
  interface : String
  device : String

/-- `qnode.construct(args, kwargs)` for a symbolic QNode: rebuilds `qtape` by
evaluating every gate-parameter expression at the call arguments. -/
def symConstruct (qn : SymQNode) (args : List Rat) : Tape :=
  ⟨"QuantumTape", qn.ops.map (fun o => .item o.name (o.exprs.map (Expr.eval args)) o.isMeas),
   qn.interface⟩

/-- The `classical_preprocessing` closure of `classical_jacobian`, read
symbolically: constructing the QNode's tape and flattening `get_parameters`
yields precisely the flattened list of gate-parameter expressions (the lemma
`symPreprocessing_eval` below ties this to `symConstruct`). -/
def symPreprocessing (qn : SymQNode) : List Expr :=
  listFlatMap SymItem.exprs qn.ops

/-- `classical_jacobian(qnode)`, translated from the source: builds the
classical-preprocessing function (construct the tape, return its stacked
parameters) and hands it to `_make_jacobian_fn` together with the QNode's
declared backend identifier. -/
def classical_jacobian (qn : SymQNode) : Option (JacobianFn (List Expr)) :=
  _make_jacobian_fn (symPreprocessing qn) qn.interface

/-- A tape transform submitted to `qfunc_transform`: the body together with the
declared parameter count of its signature (`len(inspect.signature(..).parameters)`,
counting the tape argument). -/
structure TapeTransform where
  arity : Nat
  body : STTBody

/-- The type of a decorated quantum function produced by `qfunc_transform`:
same call arguments as the original quantum function, threaded through the
queuing context. -/
def DecQfunc : Type := List Rat → QState → Except PyErr (List QItem) × QState

/-- The `internal_wrapper` closures of `qfunc_transform` (both branches share
this shape; the single-parameter branch passes no extra transform arguments):
materialise the function's tape with `make_tape`, apply the tape transform, and
return the output tape's measurement list. -/
def qft_internal_wrapper (tt : TapeTransform) (targs : List Rat) (fn : QFunc) :
    DecQfunc := fun args st =>
  match makeTapeRun fn args st with
  | (.ok tape, st1) =>
      match stt_call tt.body tape targs st1 with
      | (.ok t2, st2) => (.ok t2.measurements, st2)
      | (.error e, st2) => (.error e, st2)
  | (.error e, st1) => (.error e, st1)

/-- The `wrapper` closure of the multi-parameter branch of `qfunc_transform`:
applying the parameterized decorator to a non-callable (`none`) raises a
`ValueError` immediately; otherwise it returns the decorated function. -/
def qft_wrapper (tt : TapeTransform) (targs : List Rat) (fnOpt : Option QFunc) :
    Except PyErr DecQfunc :=
  match fnOpt with
  | none => .error .valueError
  | some fn => .ok (qft_internal_wrapper tt targs fn)

/-- `make_qfunc_transform` of the multi-parameter branch: takes the extra
transform arguments first and yields the decorator. -/
def make_qfunc_transform_multi (tt : TapeTransform) (targs : List Rat) :
    Option QFunc → Except PyErr DecQfunc :=
  qft_wrapper tt targs

/-- `make_qfunc_transform` of the single-parameter branch: the decorator
itself; the tape transform is called with the tape only. -/
def make_qfunc_transform_single (tt : TapeTransform) (fnOpt : Option QFunc) :
    Except PyErr DecQfunc :=
  match fnOpt with
  | none => .error .valueError
  | some fn => .ok (qft_internal_wrapper tt [] fn)

/-- The object returned by `qfunc_transform`: for a transform with extra
parameters, a parameterized-decorator factory; for a tape-only transform, the
decorator directly. -/
inductive QfuncTransformed where
  | factory (f : List Rat → Option QFunc → Except PyErr DecQfunc)
  | direct (f : Option QFunc → Except PyErr DecQfunc)

/-- `qfunc_transform(tape_transform)`, translated from the source: dispatches
on the declared parameter count.  (With zero parameters neither branch defines
`make_qfunc_transform` and the trailing attribute assignment raises a
`NameError`; no claim exercises that corner.) -/
def qfunc_transform (tt : TapeTransform) : Except PyErr QfuncTransformed :=
  if 1 < tt.arity then .ok (.factory (make_qfunc_transform_multi tt))
  else if tt.arity = 1 then .ok (.direct (make_qfunc_transform_single tt))
  else .error (.nameError "make_qfunc_transform")

/-- The return-shape annotation declared by a QNode transform function.  The
first six constructors are the concrete types named by the source's
`AUTO_EXECUTE_NO_PROCESSING` and `AUTO_EXECUTE_PROCESSING` tuples; `empty` is
`inspect._empty` (an unannotated function); `other` is any different
annotation. -/
inductive RetAnn where
  | annTape
  | annTapeList
  | annTapeNonePair
  | annTapeListNonePair
  | empty
  | annTapeListFnPair
  | other (s : String)
  deriving DecidableEq, Repr

/-- `AUTO_EXECUTE_NO_PROCESSING`: return types for which returned tapes are
auto-executed with no post-processing. -/
def AUTO_EXECUTE_NO_PROCESSING : List RetAnn :=
  [.annTape, .annTapeList, .annTapeNonePair, .annTapeListNonePair]

/-- `AUTO_EXECUTE_PROCESSING`: return types for which returned tapes are
auto-executed and a post-processing function is applied. -/
def AUTO_EXECUTE_PROCESSING : List RetAnn :=
  [.empty, .annTapeListFnPair]

/-- `AUTO_EXECUTE = AUTO_EXECUTE_PROCESSING + AUTO_EXECUTE_NO_PROCESSING`. -/
def AUTO_EXECUTE : List RetAnn :=
  AUTO_EXECUTE_PROCESSING ++ AUTO_EXECUTE_NO_PROCESSING

/-- A differentiable circuit entity (QNode) as consumed by `qnode_transform`:
quantum function, backend identifier, execution target, and the most recently
constructed tape (spec sections 3 and 6). -/
structure QNode where
  qfunc : List Rat → List QItem
  kind : String
  interface : String
  device : String
  qtape : Option Tape

/-- `qnode.construct(args, kwargs)`: rebuilds `qtape` from the call
arguments. -/
def QNode.construct (qn : QNode) (args : List Rat) : QNode :=
  { qn with qtape := some ⟨qn.kind, qn.qfunc args, qn.interface⟩ }

/-- The currently constructed tape of a QNode (defaulting to an empty tape;
every modelled call path constructs before reading, as the source does). -/
def QNode.qtapeD (qn : QNode) : Tape :=
  qn.qtape.getD ⟨qn.kind, [], qn.interface⟩

/-- The dynamic first argument a QNode transform function is called with:
`qnode.qtape` in the no-post-processing branch, the QNode itself in the
post-processing branch. -/
inductive TInput where
  | tapeIn (t : Tape)
  | qnodeIn (q : QNode)

/-- The dynamic return value of a QNode transform function: a bare tape, a
list of tapes, a `(tape, None)` or `(tapes, None)` pair, or a
`(tapes, processing_fn)` pair. -/
inductive TRet where
  | rTape (t : Tape)
  | rTapeList (ts : List Tape)
  | rPairTapeNone (t : Tape)
  | rPairListNone (ts : List Tape)
  | rPairListFn (ts : List Tape) (f : List Rat → Rat)

/-- A transform function submitted to `qnode_transform`: its declared
parameter count, whether it is already a `single_tape_transform` instance, its
declared return annotation, and its behaviour — `run` for a plain function
(pure; called with a tape or a QNode), `sttBody` for the queue-mutating body
of a `single_tape_transform`. -/
structure QNodeTransformFn where
  arity : Nat
  isSTT : Bool
  ann : RetAnn
  run : TInput → List Rat → TRet
  sttBody : STTBody

/-- The registration-time classification of `qnode_transform`, translated from
the source: a `single_tape_transform` instance is auto-execute without
post-processing; otherwise the declared return annotation is looked up in
`AUTO_EXECUTE` and `AUTO_EXECUTE_PROCESSING`. -/
def classifyTransform (tf : QNodeTransformFn) : Bool × Bool :=
  if tf.isSTT then (true, false)
  else (decide (tf.ann ∈ AUTO_EXECUTE),
        decide (tf.ann ∈ AUTO_EXECUTE) && decide (tf.ann ∈ AUTO_EXECUTE_PROCESSING))

/-- Calling the registered transform function on an input: a
`single_tape_transform` runs its body through the queuing context (it is only
ever handed a tape); a plain function returns its value purely. -/
def runQNodeTransform (tf : QNodeTransformFn) (inp : TInput) (targs : List Rat)
    (st : QState) : Except PyErr TRet × QState :=
  if tf.isSTT then
    match inp with
    | .tapeIn t =>
        match stt_call tf.sttBody t targs st with
        | (.ok t2, st1) => (.ok (.rTape t2), st1)
        | (.error e, st1) => (.error e, st1)
    | .qnodeIn _ => (.error .typeError, st)
  else (.ok (tf.run inp targs), st)

/-- An executed-call record for a decorated QNode: the returned value (`res` —
`none` models Python's implicit `return None`), the constructed tape, how many
times the transform function was invoked, which tapes were executed against
the device, and the final queuing context. -/
structure CallLog where
  res : Except PyErr (Option (List Rat))
  qtape : Option Tape
  calls : Nat
  executed : List Tape
  st : QState

/-- The `internal_wrapper` closure of the multi-parameter branch of
`qnode_transform`, translated from the source.  After `qnode.construct`: if
classified auto-execute without post-processing, the transform is called on
`qnode.qtape`; the subsequent `isinstance(tapes, Sequence)` check then reads
the name `Sequence`, which the module never imports, so the call raises a
`NameError` (the tuple-`None` normalisation that precedes it has no observable
effect).  If classified auto-execute with post-processing, the transform is
called on the QNode, the returned tapes are executed and the processing
function is applied to the flat result list (a return value that does not
unpack into `(tapes, fn)` with a callable `fn` raises a `TypeError`; for a
`(tapes, None)` pair the tapes are executed before `fn(res)` fails).
Otherwise the wrapper falls through and returns `None`. -/
def qnt_internal_wrapper_multi (exec : Tape → String → Rat)
    (tf : QNodeTransformFn) (targs : List Rat) (qn : QNode) (args : List Rat)
    (st : QState) : CallLog :=
  let qn' := qn.construct args
  let cls := classifyTransform tf
  if cls.1 && !cls.2 then
    match runQNodeTransform tf (.tapeIn qn'.qtapeD) targs st with
    | (.error e, st1) => ⟨.error e, qn'.qtape, 1, [], st1⟩
    | (.ok _, st1) => ⟨.error (.nameError "Sequence"), qn'.qtape, 1, [], st1⟩
  else if cls.1 then
    match runQNodeTransform tf (.qnodeIn qn') targs st with
    | (.error e, st1) => ⟨.error e, qn'.qtape, 1, [], st1⟩
    | (.ok (.rPairListFn ts f), st1) =>
        ⟨.ok (some [f (ts.map (fun t => exec t qn'.device))]), qn'.qtape, 1, ts, st1⟩
    | (.ok (.rPairListNone ts), st1) =>
        ⟨.error .typeError, qn'.qtape, 1, ts, st1⟩
    | (.ok _, st1) => ⟨.error .typeError, qn'.qtape, 1, [], st1⟩
  else ⟨.ok none, qn'.qtape, 0, [], st⟩

/-- The `internal_wrapper` closure of the single-parameter branch of
`qnode_transform`, translated from the source: after `qnode.construct`, a
`single_tape_transform` is applied to `qnode.qtape` with the identity as
processing function; any other transform is called on the QNode and its
return value unpacked as `(tapes, fn)` (with `TypeError` on failure, as
above).  The tapes are executed and `fn` applied — the registration-time
classification is never consulted in this branch. -/
def qnt_internal_wrapper_single (exec : Tape → String → Rat)
    (tf : QNodeTransformFn) (qn : QNode) (args : List Rat) (st : QState) :
    CallLog :=
  let qn' := qn.construct args
  if tf.isSTT then
    match stt_call tf.sttBody qn'.qtapeD [] st with
    | (.ok t, st1) => ⟨.ok (some [exec t qn'.device]), qn'.qtape, 1, [t], st1⟩
    | (.error e, st1) => ⟨.error e, qn'.qtape, 1, [], st1⟩
  else
    match runQNodeTransform tf (.qnodeIn qn') [] st with
    | (.error e, st1) => ⟨.error e, qn'.qtape, 1, [], st1⟩
    | (.ok (.rPairListFn ts f), st1) =>
        ⟨.ok (some [f (ts.map (fun t => exec t qn'.device))]), qn'.qtape, 1, ts, st1⟩
    | (.ok (.rPairListNone ts), st1) =>
        ⟨.error .typeError, qn'.qtape, 1, ts, st1⟩
    | (.ok _, st1) => ⟨.error .typeError, qn'.qtape, 1, [], st1⟩

/-- The type of a decorated QNode call. -/
def DecQnode : Type := List Rat → QState → CallLog

/-- The `wrapper` closure of the multi-parameter branch of `qnode_transform`:
decorating an object that is not a valid QNode (`none`) raises a `ValueError`
immediately. -/
def qnt_wrapper_multi (exec : Tape → String → Rat) (tf : QNodeTransformFn)
    (targs : List Rat) (qnOpt : Option QNode) : Except PyErr DecQnode :=
  match qnOpt with
  | none => .error .valueError
  | some qn => .ok (qnt_internal_wrapper_multi exec tf targs qn)

/-- `make_qnode_transform` of the single-parameter branch: decorating a
non-QNode raises a `ValueError` immediately. -/
def qnt_wrapper_single (exec : Tape → String → Rat) (tf : QNodeTransformFn)
    (qnOpt : Option QNode) : Except PyErr DecQnode :=
  match qnOpt with
  | none => .error .valueError
  | some qn => .ok (qnt_internal_wrapper_single exec tf qn)

/-- The object returned by `qnode_transform`: a parameterized-decorator
factory for a transform with extra parameters, the decorator directly for a
single-parameter transform. -/
inductive QnodeTransformed where
  | factory (f : List Rat → Option QNode → Except PyErr DecQnode)
  | direct (f : Option QNode → Except PyErr DecQnode)

/-- `qnode_transform(qnode_transform_fn)`, translated from the source:
registering a non-callable (`none`) raises a `ValueError`; otherwise the
parameter count selects the factory or the direct decorator.  (With zero
parameters neither branch defines `make_qnode_transform` and the final
`return` raises a `NameError`; no claim exercises that corner.) -/
def qnode_transform (exec : Tape → String → Rat)
    (tfOpt : Option QNodeTransformFn) : Except PyErr QnodeTransformed :=
  match tfOpt with
  | none => .error .valueError
  | some tf =>
      if 1 < tf.arity then .ok (.factory (qnt_wrapper_multi exec tf))
      else if tf.arity = 1 then .ok (.direct (qnt_wrapper_single exec tf))
      else .error (.nameError "make_qnode_transform")

/-- The tape class of the active scope, or the default generic tape class when
none is active (which class `make_tape` instantiates). -/
def headKind (st : QState) : String :=
  match st.stack with
  | s :: _ => s.kind
  | [] => "QuantumTape"

/-- A concrete execution collaborator for closed evaluations: executing a tape
yields its first parameter (spec section 6 fixes only the signature
`execute(tape, device) -> flat numeric result`). -/
def execModel : Tape → String → Rat := fun t _ => t.get_parameters.headD 0

/-- Concrete outer scope for the C1 scenario: a tape actively recording one
`RY` rotation before the transform is invoked. -/
def c1Scope : Scope :=
  ⟨0, "QuantumTape", true, false, [QItem.item "RY" [1] false]⟩

/-- Concrete queuing context for the C1 scenario. -/
def c1State : QState := ⟨[c1Scope], 1⟩

/-- Concrete transform body for the C1 scenario: queues one `Hadamard`. -/
def c1Body : STTBody := fun _ _ => ([QItem.item "Hadamard" [] false], none)

/-- Concrete input tape for the C1 scenario. -/
def c1Input : Tape := ⟨"QuantumTape", [], "autograd"⟩

/-- Concrete tape returned by the C2 transform. -/
def c2tape : Tape := ⟨"QuantumTape", [QItem.item "RX" [1/2] false], "autograd"⟩

/-- Concrete single-parameter QNode transform for C2: its declared return
annotation is outside the auto-execute set, yet it honestly returns a
`(tapes, processing_fn)` pair. -/
def c2tf : QNodeTransformFn :=
  { arity := 1, isSTT := false, ann := .other "int",
    run := fun _ _ => .rPairListFn [c2tape] (fun rs => rs.headD 0),
    sttBody := fun _ _ => ([], none) }

/-- Concrete QNode for C2. -/
def c2qn : QNode :=
  { qfunc := fun _ => [], kind := "QuantumTape", interface := "autograd",
    device := "default.qubit", qtape := none }

/-- Concrete decomposition table for the C4 witness: `U` decomposes into `A`
(inheriting the parameters) followed by a parameterless `B`. -/
def c4decomp : String → List Rat → Option (List QItem) := fun n ps =>
  if n = "U" then some [QItem.item "A" ps false, QItem.item "B" [] false] else none

/-- Concrete expansion-Jacobian extractor state for the C4 witness. -/
def c4e : ExpansionJacobian :=
  mkExpansionJacobian ⟨"JacobianTape", [QItem.item "U" [5] false], "torch"⟩ 1 none

/-- Concrete tape returned by the C5 transform. -/
def c5tape : Tape := ⟨"QuantumTape", [QItem.item "RZ" [1/3] false], "autograd"⟩

/-- Concrete two-parameter QNode transform for C5, annotated to return a bare
tape (auto-execute, no post-processing). -/
def c5tf : QNodeTransformFn :=
  { arity := 2, isSTT := false, ann := .annTape,
    run := fun _ _ => .rTape c5tape, sttBody := fun _ _ => ([], none) }

/-- Concrete QNode for C5. -/
def c5qn : QNode :=
  { qfunc := fun args => [QItem.item "RX" args false], kind := "QuantumTape",
    interface := "autograd", device := "default.qubit", qtape := none }

/-- Concrete quantum function for the C7 witness: records one measurement. -/
def c7fn : QFunc := fun _ => ([QItem.item "M" [] true], none)

/-- Concrete tape-only (single-parameter) tape transform for the C7 witness. -/
def c7tt1 : TapeTransform := ⟨1, fun tape _ => (tape.queue, none)⟩

/-- Concrete two-parameter tape transform for the C7 witness. -/
def c7tt2 : TapeTransform :=
  ⟨2, fun tape targs => (tape.queue ++ [QItem.item "RX" targs false], none)⟩

/-- The claim C8 example circuit: `f(x, y) = [RX(x), RY(x)]`. -/
def c8qn : SymQNode :=
  ⟨[⟨"RX", [Expr.var 0], false⟩, ⟨"RY", [Expr.var 0], false⟩],
   "autograd", "default.qubit"⟩

/-- Concrete tape for the C10 witness. -/
def c10tape : Tape := ⟨"QuantumTape", [QItem.item "RZ" [1/4] false], "autograd"⟩

/-- Concrete two-parameter QNode transform for the C10 witness: its declared
return annotation is outside the auto-execute set. -/
def c10tf : QNodeTransformFn :=
  { arity := 2, isSTT := false, ann := .other "str",
    run := fun _ _ => .rTape c10tape, sttBody := fun _ _ => ([], none) }

/-- Concrete QNode for the C10 witness. -/
def c10qn : QNode :=
  { qfunc := fun args => [QItem.item "RY" args false], kind := "QuantumTape",
    interface := "autograd", device := "default.qubit", qtape := none }

lemma foldl_qappend_recording (items : List QItem) (s : Scope) (rest : List Scope)
    (f : Nat) (h : s.recording = true) :
    items.foldl qappend ⟨s :: rest, f⟩ =
      ⟨{ s with queue := s.queue ++ items } :: rest, f⟩ := by
  induction items generalizing s with
  | nil => simp
  | cons a items ih =>
      rw [List.foldl_cons]
      have : qappend ⟨s :: rest, f⟩ a =
          ⟨{ s with queue := s.queue ++ [a] } :: rest, f⟩ := by
        simp [qappend, h]
      rw [this, ih { s with queue := s.queue ++ [a] } h]
      simp

/-- C3: for every quantum function and arguments, `make_tape` returns a tape
capturing exactly the operations instantiated during the function's execution;
the queuing-context stack — in particular the recording scope active before
the call, with its contents — is exactly what it was before, both on normal
return and when the function raises, and the raised error propagates. -/
theorem C3_make_tape_isolation (fn : QFunc) (args : List Rat) (st : QState) :
    (makeTapeRun fn args st).2.stack = st.stack
  ∧ (makeTapeRun fn args st).1 =
      (match (fn args).2 with
       | none => .ok ⟨headKind st, (fn args).1, "autograd"⟩
       | some e => .error e) := by
  obtain ⟨stack, f⟩ := st
  cases stack with
  | nil =>
      simp only [makeTapeRun, enterTape, qappend, headKind]
      rw [foldl_qappend_recording _ _ _ _ rfl]
      simp [exitTape]
  | cons s rest =>
      simp only [makeTapeRun, setTopRecording, enterTape, headKind]
      have happ : qappend ⟨{ s with recording := false } :: rest, f⟩
          (QItem.nested f) = ⟨{ s with recording := false } :: rest, f⟩ := by
        simp [qappend]
      rw [happ, foldl_qappend_recording _ _ _ _ rfl]
      simp [exitTape, setTopRecording]

/-- C1 (counterexample): with a tape actively recording an `RY` before the
transform call, a single-tape transform whose body instantiates a `Hadamard`
leaves that `Hadamard` queued in the previously recording tape — the claim
that such operations never appear in any tape that was actively recording
before the transform is false of the code (`NonQueuingTape._process_queue`
forwards them outward). -/
theorem C1_counterexample :
    c1Scope.recording = true
  ∧ QItem.item "Hadamard" [] false ∉ c1Scope.queue
  ∧ (stt_call c1Body c1Input [] c1State).2.stack =
      [⟨0, "QuantumTape", true, false,
        [QItem.item "RY" [1] false, QItem.item "Hadamard" [] false]⟩]
  ∧ QItem.item "Hadamard" [] false ∈
      (match (stt_call c1Body c1Input [] c1State).2.stack with
       | s :: _ => s.queue
       | [] => []) := by
  refine ⟨rfl, by decide, ?_, ?_⟩ <;> decide

/-- C1 (amended): operations instantiated inside a single-tape transform's
body are captured by the transform's output tape and are, in addition,
forwarded into the scope that was actively recording before the transform was
invoked — which afterwards holds its previous contents followed by exactly
those operations, with the intermediate non-queuing tape removed.  (They are
captured only by the output tape just when no scope was recording before.) -/
theorem C1_amended_forwarding (body : STTBody) (tape : Tape) (targs : List Rat)
    (s : Scope) (rest : List Scope) (f : Nat)
    (hrec : s.recording = true)
    (hfresh : QItem.nested f ∉ s.queue)
    (hbody : (body tape targs).2 = none) :
    (stt_call body tape targs ⟨s :: rest, f⟩).1 =
      .ok ⟨tape.kind, (body tape targs).1, "autograd"⟩
  ∧ (stt_call body tape targs ⟨s :: rest, f⟩).2 =
      ⟨{ s with queue := s.queue ++ (body tape targs).1 } :: rest, f + 1⟩ := by
  rcases hr : body tape targs with ⟨items, err⟩
  rw [hr] at hbody
  simp only at hbody
  subst hbody
  have hEnter : (enterTape tape.kind true ⟨s :: rest, f⟩).2 =
      ⟨(⟨f, tape.kind, true, true, []⟩ : Scope) ::
        { s with queue := s.queue ++ [QItem.nested f] } :: rest, f + 1⟩ := by
    simp [enterTape, qappend, hrec]
  have hFold : items.foldl qappend
      ⟨(⟨f, tape.kind, true, true, []⟩ : Scope) ::
        { s with queue := s.queue ++ [QItem.nested f] } :: rest, f + 1⟩ =
      ⟨(⟨f, tape.kind, true, true, items⟩ : Scope) ::
        { s with queue := s.queue ++ [QItem.nested f] } :: rest, f + 1⟩ := by
    rw [foldl_qappend_recording _ _ _ _ rfl]
    simp
  have hFold2 : items.foldl qappend
      ⟨{ s with queue := s.queue ++ [QItem.nested f] } :: rest, f + 1⟩ =
      ⟨{ s with queue := (s.queue ++ [QItem.nested f]) ++ items } :: rest, f + 1⟩ :=
    foldl_qappend_recording _ _ _ _ hrec
  have hExit : exitTape
      ⟨(⟨f, tape.kind, true, true, items⟩ : Scope) ::
        { s with queue := s.queue ++ [QItem.nested f] } :: rest, f + 1⟩ =
      (⟨tape.kind, items, "autograd"⟩,
       ⟨{ s with queue := s.queue ++ items } :: rest, f + 1⟩) := by
    have h1 : exitTape
        ⟨(⟨f, tape.kind, true, true, items⟩ : Scope) ::
          { s with queue := s.queue ++ [QItem.nested f] } :: rest, f + 1⟩ =
        (⟨tape.kind, items, "autograd"⟩,
         qremove (items.foldl qappend
           ⟨{ s with queue := s.queue ++ [QItem.nested f] } :: rest, f + 1⟩)
           (QItem.nested f)) := by
      simp [exitTape]
    rw [h1, hFold2]
    simp only [qremove, hrec]
    rw [List.append_assoc, List.erase_append_right _ hfresh]
    simp
  simp [stt_call, hr, hEnter, hFold, hExit]

/-- Witness for C1 (amended), at the concrete C1 scenario. -/
theorem C1_amended_forwarding_witness :
    (stt_call c1Body c1Input [] c1State).1 =
      .ok ⟨"QuantumTape", [QItem.item "Hadamard" [] false], "autograd"⟩
  ∧ (stt_call c1Body c1Input [] c1State).2 =
      ⟨[⟨0, "QuantumTape", true, false,
         [QItem.item "RY" [1] false, QItem.item "Hadamard" [] false]⟩], 2⟩ :=
  C1_amended_forwarding c1Body c1Input [] c1Scope [] 1 rfl (by decide) rfl

/-- C2 (counterexample): a single-parameter transform whose declared return
annotation is outside the auto-execute set is classified not-auto-execute at
registration, yet every call of the decorated circuit still executes the tapes
it returns and applies its processing function — so the registration-time
classification does not determine whether the returned tapes are executed. -/
theorem C2_counterexample :
    classifyTransform c2tf = (false, false)
  ∧ (qnt_internal_wrapper_single execModel c2tf c2qn [] ⟨[], 0⟩).executed = [c2tape]
  ∧ (qnt_internal_wrapper_single execModel c2tf c2qn [] ⟨[], 0⟩).res =
      .ok (some [1/2]) := by
  refine ⟨by decide, rfl, rfl⟩

/-- C2 (amended): the circuit-transform registrar classifies a transform
exactly once at registration time — a single-tape transform, and one whose
declared return annotation is a tape / list-of-tapes / (tape-or-tapes, None)
pair, are classified auto-execute without post-processing; an unannotated one
or one declaring a (tapes-list, callable) return is classified auto-execute
with post-processing; any other annotation is classified not-auto-execute —
and the classification is a function of the registered transform alone, fixed
across calls.  For a multi-parameter transform, the classification (together
with the transform function itself) determines every call's behaviour: the
declared annotation influences a call only through the classification.  For a
single-parameter transform, however, the call path never consults the
classification: its behaviour is identical for every declared annotation. -/
theorem C2_amended_classification :
    (∀ tf : QNodeTransformFn, tf.isSTT = true → classifyTransform tf = (true, false))
  ∧ (∀ tf : QNodeTransformFn, tf.isSTT = false →
        (tf.ann ∈ AUTO_EXECUTE_NO_PROCESSING → classifyTransform tf = (true, false))
      ∧ (tf.ann ∈ AUTO_EXECUTE_PROCESSING → classifyTransform tf = (true, true))
      ∧ (∀ s, tf.ann = .other s → classifyTransform tf = (false, false)))
  ∧ (∀ tf₁ tf₂ : QNodeTransformFn, tf₁.isSTT = tf₂.isSTT → tf₁.ann = tf₂.ann →
        classifyTransform tf₁ = classifyTransform tf₂)
  ∧ (∀ (exec : Tape → String → Rat) (tf : QNodeTransformFn) (a' : RetAnn)
        (targs : List Rat) (qn : QNode) (args : List Rat) (st : QState),
        classifyTransform { tf with ann := a' } = classifyTransform tf →
        qnt_internal_wrapper_multi exec { tf with ann := a' } targs qn args st =
          qnt_internal_wrapper_multi exec tf targs qn args st)
  ∧ (∀ (exec : Tape → String → Rat) (tf : QNodeTransformFn) (a' : RetAnn)
        (qn : QNode) (args : List Rat) (st : QState),
        qnt_internal_wrapper_single exec { tf with ann := a' } qn args st =
          qnt_internal_wrapper_single exec tf qn args st) := by
  refine ⟨?_, ?_, ?_, ?_, ?_⟩
  · intro tf h
    simp [classifyTransform, h]
  · intro tf h
    refine ⟨?_, ?_, ?_⟩
    · intro hm
      unfold classifyTransform
      rw [h]
      simp only [AUTO_EXECUTE_NO_PROCESSING, List.mem_cons] at hm
      rcases hm with h1 | h1 | h1 | h1 | h1 <;> first
        | (rw [h1]; decide)
        | cases h1
    · intro hm
      unfold classifyTransform
      rw [h]
      simp only [AUTO_EXECUTE_PROCESSING, List.mem_cons] at hm
      rcases hm with h1 | h1 | h1 <;> first
        | (rw [h1]; decide)
        | cases h1
    · intro s hs
      unfold classifyTransform
      rw [h, hs]
      simp [AUTO_EXECUTE, AUTO_EXECUTE_PROCESSING, AUTO_EXECUTE_NO_PROCESSING]
  · intro tf1 tf2 h1 h2
    unfold classifyTransform
    rw [h1, h2]
  · intro exec tf a' targs qn args st h
    obtain ⟨ar, stt, ann, run, body⟩ := tf
    unfold qnt_internal_wrapper_multi
    rw [h]
    rfl
  · intro exec tf a' qn args st
    obtain ⟨ar, stt, ann, run, body⟩ := tf
    rfl

/-- Witness for C2 (amended): the single-parameter call path at the concrete
C2 transform gives the same record whatever the declared annotation. -/
theorem C2_amended_classification_witness :
    qnt_internal_wrapper_single execModel { c2tf with ann := .annTape } c2qn [] ⟨[], 0⟩ =
      qnt_internal_wrapper_single execModel c2tf c2qn [] ⟨[], 0⟩ :=
  C2_amended_classification.2.2.2.2 execModel c2tf (.annTape) c2qn [] ⟨[], 0⟩

/-- C5 (code-bug evidence): a two-parameter transform annotated to return a
bare tape is classified auto-execute without post-processing, but every call
of the decorated circuit raises `NameError` on the undefined name `Sequence`
(the module never imports it) right after invoking the transform — no tape is
ever executed and no result list is returned. -/
theorem C5_missing_import_bug :
    classifyTransform c5tf = (true, false)
  ∧ qnt_internal_wrapper_multi execModel c5tf [7] c5qn [1/2] ⟨[], 0⟩ =
      ⟨.error (.nameError "Sequence"),
       some ⟨"QuantumTape", [QItem.item "RX" [1/2] false], "autograd"⟩,
       1, [], ⟨[], 0⟩⟩ := by
  exact ⟨by decide, rfl⟩

/-- C10: a call of a circuit decorated with a multi-argument transform that is
not a single-tape transform and whose declared return annotation is outside
the auto-execute set reconstructs the circuit's tape and then returns `None`,
without invoking the transform function, executing any tape, or raising. -/
theorem C10_fallthrough_none (exec : Tape → String → Rat)
    (tf : QNodeTransformFn) (targs : List Rat) (qn : QNode) (args : List Rat)
    (st : QState) (hstt : tf.isSTT = false) (hann : tf.ann ∉ AUTO_EXECUTE) :
    qnt_internal_wrapper_multi exec tf targs qn args st =
      ⟨.ok none, some ⟨qn.kind, qn.qfunc args, qn.interface⟩, 0, [], st⟩ := by
  have hcls : classifyTransform tf = (false, false) := by
    simp [classifyTransform, hstt, hann]
  unfold qnt_internal_wrapper_multi
  rw [hcls]
  rfl

/-- Witness for C10, at a concrete transform and circuit. -/
theorem C10_fallthrough_none_witness :
    qnt_internal_wrapper_multi execModel c10tf [3] c10qn [1/5] ⟨[], 0⟩ =
      ⟨.ok none, some ⟨"QuantumTape", [QItem.item "RY" [1/5] false], "autograd"⟩,
       0, [], ⟨[], 0⟩⟩ :=
  C10_fallthrough_none execModel c10tf [3] c10qn [1/5] ⟨[], 0⟩ rfl (by decide)

/-- C9: every configuration error is raised at decoration / registration time,
by the registration-stage functions themselves — which take no circuit call
arguments and touch no queuing state — and never deferred to call time:
registering a non-callable as a single-tape transform, decorating a
non-callable quantum function with a qfunc transform (either branch), applying
a circuit transform to an object that is not a valid QNode (either branch),
and registering a non-callable circuit transform all return a `ValueError`
immediately. -/
theorem C9_fail_fast_config_errors :
    single_tape_transform_init none = .error .valueError
  ∧ (∀ (tt : TapeTransform) (targs : List Rat),
        qft_wrapper tt targs none = .error .valueError)
  ∧ (∀ tt : TapeTransform, make_qfunc_transform_single tt none = .error .valueError)
  ∧ (∀ (exec : Tape → String → Rat) (tf : QNodeTransformFn) (targs : List Rat),
        qnt_wrapper_multi exec tf targs none = .error .valueError)
  ∧ (∀ (exec : Tape → String → Rat) (tf : QNodeTransformFn),
        qnt_wrapper_single exec tf none = .error .valueError)
  ∧ (∀ exec : Tape → String → Rat, qnode_transform exec none = .error .valueError) :=
  ⟨rfl, fun _ _ => rfl, fun _ => rfl, fun _ _ _ => rfl, fun _ _ => rfl, fun _ => rfl⟩

lemma get_distributeParams (q : List QItem) (vals : List Rat)
    (h : vals.length = (listFlatMap QItem.params' q).length) :
    listFlatMap QItem.params' (distributeParams q vals) = vals := by
  induction q generalizing vals with
  | nil =>
      simp [listFlatMap] at h
      simp [distributeParams, listFlatMap, h]
  | cons it rest ih =>
      cases it with
      | item n ps m =>
          simp only [distributeParams, listFlatMap, QItem.params']
          have hlen : ps.length ≤ vals.length := by
            simp [listFlatMap, QItem.params'] at h
            omega
          have hdrop : (vals.drop ps.length).length =
              (listFlatMap QItem.params' rest).length := by
            simp [listFlatMap, QItem.params'] at h ⊢
            omega
          rw [ih _ hdrop, List.take_append_drop]
      | nested i =>
          simp only [distributeParams, listFlatMap, QItem.params', List.nil_append]
          exact ih _ h

lemma distributeParams_distributeParams (q : List QItem) (p1 p2 : List Rat)
    (h1 : p1.length = (listFlatMap QItem.params' q).length) :
    distributeParams (distributeParams q p1) p2 = distributeParams q p2 := by
  induction q generalizing p1 p2 with
  | nil => simp [distributeParams]
  | cons it rest ih =>
      cases it with
      | item n ps m =>
          have hlen : ps.length ≤ p1.length := by
            simp [listFlatMap, QItem.params'] at h1
            omega
          have htake : (p1.take ps.length).length = ps.length := by
            simp [hlen]
          have hdrop : (p1.drop ps.length).length =
              (listFlatMap QItem.params' rest).length := by
            simp [listFlatMap, QItem.params'] at h1 ⊢
            omega
          simp only [distributeParams, htake]
          rw [ih _ _ hdrop]
      | nested i =>
          simp only [distributeParams]
          rw [ih _ _ h1]

/-- C4: each call of the expansion-mode extractor's preprocessing function
with candidate parameter values (of the tape's arity) (i) writes those values
back into the wrapped tape — after the call the tape's parameters are exactly
the candidate values — (ii) expands that tape to the configured depth with the
configured stop predicate and caches the expansion in the `expanded_tape`
attribute, and (iii) returns the flat parameter collection of that expanded
tape; and after a second call the cache reflects only the second call's
values, with no dependence on the first call's. -/
theorem C4_expansion_preprocessing
    (decomp : String → List Rat → Option (List QItem))
    (e : ExpansionJacobian) (p1 p2 : List Rat)
    (h1 : p1.length = e.tape.arity) (h2 : p2.length = e.tape.arity) :
    (e.classical_preprocessing decomp p1).1.tape = e.tape.set_parameters p1
  ∧ ((e.classical_preprocessing decomp p1).1.tape).get_parameters = p1
  ∧ (e.classical_preprocessing decomp p1).1.expanded_tape =
      some ((e.tape.set_parameters p1).expand decomp e.stopAt e.depth)
  ∧ (e.classical_preprocessing decomp p1).2 =
      ((e.tape.set_parameters p1).expand decomp e.stopAt e.depth).get_parameters
  ∧ (((e.classical_preprocessing decomp p1).1).classical_preprocessing decomp p2).1.expanded_tape =
      some ((e.tape.set_parameters p2).expand decomp e.stopAt e.depth) := by
  refine ⟨rfl, ?_, rfl, rfl, ?_⟩
  · exact get_distributeParams _ _ h1
  · show some ((Tape.set_parameters (e.tape.set_parameters p1) p2).expand decomp e.stopAt e.depth) = _
    unfold Tape.set_parameters
    rw [distributeParams_distributeParams _ _ _ h1]

/-- Witness for C4, at the concrete single-`U` tape with decomposition table
`c4decomp`, parameter values `[2]` then `[3]`. -/
theorem C4_expansion_preprocessing_witness :
    (c4e.classical_preprocessing c4decomp [2]).1.tape =
      c4e.tape.set_parameters [2]
  ∧ ((c4e.classical_preprocessing c4decomp [2]).1.tape).get_parameters = [2]
  ∧ (c4e.classical_preprocessing c4decomp [2]).1.expanded_tape =
      some ((c4e.tape.set_parameters [2]).expand c4decomp c4e.stopAt c4e.depth)
  ∧ (c4e.classical_preprocessing c4decomp [2]).2 =
      ((c4e.tape.set_parameters [2]).expand c4decomp c4e.stopAt c4e.depth).get_parameters
  ∧ (((c4e.classical_preprocessing c4decomp [2]).1).classical_preprocessing c4decomp [3]).1.expanded_tape =
      some ((c4e.tape.set_parameters [3]).expand c4decomp c4e.stopAt c4e.depth) :=
  C4_expansion_preprocessing c4decomp c4e [2] [3] (by decide) (by decide)

/-- C6: the backend Jacobian adapter factory returns an adapter for each of
the four supported backend identifiers — a distinct one per backend — and for
any other identifier it returns `None` (no error is raised; the fall-through
simply produces no adapter). -/
theorem C6_backend_adapter_selection (F : Type) (fn : F) :
    _make_jacobian_fn fn "autograd" = some (.autogradJac fn)
  ∧ _make_jacobian_fn fn "torch" = some (.torchJac fn)
  ∧ _make_jacobian_fn fn "jax" = some (.jaxJac fn)
  ∧ _make_jacobian_fn fn "tf" = some (.tfJac fn)
  ∧ _make_jacobian_fn fn "autograd" ≠ _make_jacobian_fn fn "torch"
  ∧ _make_jacobian_fn fn "autograd" ≠ _make_jacobian_fn fn "jax"
  ∧ _make_jacobian_fn fn "autograd" ≠ _make_jacobian_fn fn "tf"
  ∧ _make_jacobian_fn fn "torch" ≠ _make_jacobian_fn fn "jax"
  ∧ _make_jacobian_fn fn "torch" ≠ _make_jacobian_fn fn "tf"
  ∧ _make_jacobian_fn fn "jax" ≠ _make_jacobian_fn fn "tf"
  ∧ ∀ s : String, s ∉ (["autograd", "torch", "jax", "tf"] : List String) →
      _make_jacobian_fn fn s = none := by
  refine ⟨rfl, rfl, rfl, rfl, ?_, ?_, ?_, ?_, ?_, ?_, ?_⟩
  case _ => simp [_make_jacobian_fn]
  case _ => simp [_make_jacobian_fn]
  case _ => simp [_make_jacobian_fn]
  case _ => simp [_make_jacobian_fn]
  case _ => simp [_make_jacobian_fn]
  case _ => simp [_make_jacobian_fn]
  intro s hs
  simp only [List.mem_cons, List.not_mem_nil, or_false, not_or] at hs
  simp [_make_jacobian_fn, hs.1, hs.2.1, hs.2.2.1, hs.2.2.2]

/-- Witness for C6: the unrecognized identifier `numpy` yields no adapter. -/
theorem C6_backend_adapter_selection_witness :
    _make_jacobian_fn (0 : Nat) "numpy" = none :=
  (C6_backend_adapter_selection Nat 0).2.2.2.2.2.2.2.2.2.2 "numpy" (by decide)

/-- C7: a tape transform declaring exactly one parameter yields the decorator
directly; applying it to a quantum function gives a function whose every call
materializes the function's tape, applies the tape transform (with no extra
arguments), and returns the output tape's measurement list.  A transform with
more than one parameter yields a factory that takes the extra transform
arguments first and produces that same decorator, threading those arguments
into the tape transform on every invocation. -/
theorem C7_qfunc_transform_dispatch (tt : TapeTransform) (fn : QFunc)
    (args targs : List Rat) (st : QState) :
    (tt.arity = 1 →
        qfunc_transform tt = .ok (.direct (make_qfunc_transform_single tt))
      ∧ make_qfunc_transform_single tt (some fn) =
          .ok (qft_internal_wrapper tt [] fn)
      ∧ qft_internal_wrapper tt [] fn args st =
          (match makeTapeRun fn args st with
           | (.ok tape, st1) =>
               (match stt_call tt.body tape [] st1 with
                | (.ok t2, st2) => (.ok t2.measurements, st2)
                | (.error e, st2) => (.error e, st2))
           | (.error e, st1) => (.error e, st1)))
  ∧ (1 < tt.arity →
        qfunc_transform tt = .ok (.factory (make_qfunc_transform_multi tt))
      ∧ make_qfunc_transform_multi tt targs (some fn) =
          .ok (qft_internal_wrapper tt targs fn)
      ∧ qft_internal_wrapper tt targs fn args st =
          (match makeTapeRun fn args st with
           | (.ok tape, st1) =>
               (match stt_call tt.body tape targs st1 with
                | (.ok t2, st2) => (.ok t2.measurements, st2)
                | (.error e, st2) => (.error e, st2))
           | (.error e, st1) => (.error e, st1))) := by
  constructor
  · intro h
    have hn : ¬ 1 < tt.arity := by omega
    refine ⟨?_, rfl, rfl⟩
    simp [qfunc_transform, h, hn]
  · intro h
    refine ⟨?_, rfl, rfl⟩
    simp [qfunc_transform, h]

/-- Witness for C7: the concrete single-parameter transform registers as the
direct decorator and the concrete two-parameter transform as a factory. -/
theorem C7_qfunc_transform_dispatch_witness :
    qfunc_transform c7tt1 = .ok (.direct (make_qfunc_transform_single c7tt1))
  ∧ qfunc_transform c7tt2 = .ok (.factory (make_qfunc_transform_multi c7tt2)) :=
  ⟨((C7_qfunc_transform_dispatch c7tt1 c7fn [] [] ⟨[], 0⟩).1 rfl).1,
   ((C7_qfunc_transform_dispatch c7tt2 c7fn [] [] ⟨[], 0⟩).2 (by decide)).1⟩

lemma flatParams_of_map_eval (l : List SymItem) (args : List Rat) :
    listFlatMap QItem.params'
      (l.map (fun o => QItem.item o.name (o.exprs.map (Expr.eval args)) o.isMeas)) =
    (listFlatMap SymItem.exprs l).map (Expr.eval args) := by
  induction l with
  | nil => rfl
  | cons o rest ih => simp [listFlatMap, QItem.params', ih]

lemma symPreprocessing_eval (qn : SymQNode) (args : List Rat) :
    (symConstruct qn args).get_parameters =
      (symPreprocessing qn).map (Expr.eval args) := by
  unfold symConstruct Tape.get_parameters symPreprocessing
  exact flatParams_of_map_eval qn.ops args

lemma pderiv_eval_zero (j : Nat) (e : Expr) (args : List Rat)
    (h : occursVar j e = false) : (pderiv j e).eval args = 0 := by
  induction e with
  | const q => simp [pderiv, Expr.eval]
  | var i =>
      simp only [occursVar, decide_eq_false_iff_not] at h
      simp [pderiv, Expr.eval, h]
  | add a b iha ihb =>
      simp only [occursVar, Bool.or_eq_false_iff] at h
      simp [pderiv, Expr.eval, iha h.1, ihb h.2]
  | mul a b iha ihb =>
      simp only [occursVar, Bool.or_eq_false_iff] at h
      simp [pderiv, Expr.eval, iha h.1, ihb h.2]

/-- C8: for a circuit on `n` external scalar arguments whose construction
produces `m` gate parameters, the direct-mode extractor (on the reverse-mode
backend) returns the adapter wrapping the classical-preprocessing map; the
Jacobian it computes has `m` rows (one per gate parameter of the constructed
tape) of `n` columns each, its entry `[i, j]` is the partial derivative of
gate-parameter expression `i` with respect to external argument `j`, and any
argument occurring in no gate-parameter expression yields an all-zero
column. -/
theorem C8_classical_jacobian_shape (qn : SymQNode) (args : List Rat)
    (h : qn.interface = "autograd") :
    classical_jacobian qn = some (.autogradJac (symPreprocessing qn))
  ∧ (JacobianFn.autogradJac (symPreprocessing qn)).call args =
      jacMatrix (symPreprocessing qn) args
  ∧ (jacMatrix (symPreprocessing qn) args).length =
      (symConstruct qn args).get_parameters.length
  ∧ (∀ row ∈ jacMatrix (symPreprocessing qn) args, row.length = args.length)
  ∧ (∀ i j, i < (symPreprocessing qn).length → j < args.length →
        ((jacMatrix (symPreprocessing qn) args).getD i []).getD j 0 =
          (pderiv j ((symPreprocessing qn).getD i (.const 0))).eval args)
  ∧ (∀ j, (∀ e ∈ symPreprocessing qn, occursVar j e = false) →
        ∀ row ∈ jacMatrix (symPreprocessing qn) args, row.getD j 0 = 0) := by
  refine ⟨?_, rfl, ?_, ?_, ?_, ?_⟩
  · simp [classical_jacobian, _make_jacobian_fn, h]
  · rw [symPreprocessing_eval]
    simp [jacMatrix]
  · intro row hrow
    simp only [jacMatrix, List.mem_map] at hrow
    obtain ⟨e, _, rfl⟩ := hrow
    simp
  · intro i j hi hj
    have hi' : i < (jacMatrix (symPreprocessing qn) args).length := by
      simpa [jacMatrix] using hi
    have hj' : j < (List.range args.length).length := by simpa using hj
    simp [jacMatrix, List.getD_eq_getElem?_getD, List.getElem?_eq_getElem,
      hi, hj, hi', hj']
  · intro j hocc row hrow
    simp only [jacMatrix, List.mem_map] at hrow
    obtain ⟨e, he, rfl⟩ := hrow
    by_cases hj : j < args.length
    · have hj' : j < (List.range args.length).length := by simpa using hj
      simp [List.getD_eq_getElem?_getD, List.getElem?_eq_getElem, hj', hj,
        pderiv_eval_zero j e args (hocc e he)]
    · have hj' : (List.range args.length).length ≤ j := by
        simpa using Nat.le_of_not_lt hj
      simp [List.getD_eq_getElem?_getD, List.getElem?_eq_none hj']

/-- Witness for C8, at the claim's example circuit `f(x, y) = [RX(x), RY(x)]`
and argument point `(1/2, 1/3)`: the classical Jacobian is `[[1,0],[1,0]]`. -/
theorem C8_classical_jacobian_shape_witness :
    classical_jacobian c8qn = some (.autogradJac (symPreprocessing c8qn))
  ∧ (JacobianFn.autogradJac (symPreprocessing c8qn)).call [1/2, 1/3] =
      [[1, 0], [1, 0]] :=
  ⟨(C8_classical_jacobian_shape c8qn [1/2, 1/3] rfl).1,
   (C8_classical_jacobian_shape c8qn [1/2, 1/3] rfl).2.1⟩
